import Mathlib

/-!
Shallow embedding of the AlphaMaths proof-validation loop (`app.py`).

Text is modelled as `List Char`.  The parts embedded here are:

* the inline fenced-code extraction block (`app.py` lines 119-126);
* the prompt construction (`app.py` lines 93-104);
* `verify_lean_file` (`app.py` lines 15-47), with the filesystem and the
  subprocess abstracted into an explicit outcome oracle;
* the generate / extract / verify / feedback `while` loop
  (`app.py` lines 80-165), with the generator and the verifier abstracted
  into per-attempt oracles;
* the temporary-artifact lifecycle of one attempt body
  (`app.py` lines 89-150), as an explicit step list with an
  exception oracle.
-/

/-- The backtick character (written via its code point). -/
def btick : Char := '\x60'

/-- Python `"```lean"`, the opening fence marker searched for on line 119/121. -/
def openMarker : List Char := "```lean".toList

/-- Python `"```"`, the closing fence marker searched for on line 119/122. -/
def closeMarker : List Char := "```".toList

/-- The whitespace characters removed by Python `str.strip()` with no
arguments. -/
def pySpace (c : Char) : Bool :=
  c = ' ' || c = '\t' || c = '\n' || c = '\r' || c = '\x0b' || c = '\x0c'

/-- Python `s.strip()`: remove leading and trailing whitespace. -/
def pyStrip (l : List Char) : List Char :=
  ((l.dropWhile pySpace).reverse.dropWhile pySpace).reverse

/-- Python `haystack.find(needle)`: index of the first occurrence of
`needle` in `haystack`, `none` when absent (`-1` in Python). -/
def findSub (needle : List Char) : List Char → Option Nat
  | [] => if needle.isPrefixOf [] then some 0 else none
  | c :: rest =>
    if needle.isPrefixOf (c :: rest) then some 0
    else (findSub needle rest).map (· + 1)

/-- The extraction block, `app.py` lines 119-126.  Returns the proof text
that replaces `generated_proof_code`, together with a flag recording
whether the `st.warning` (MalformedExtraction) branch on line 126 ran.

Python:
```
if "```lean" in generated_proof_code and "```" in generated_proof_code:
    start_index = generated_proof_code.find("```lean") + len("```lean")
    end_index = generated_proof_code.find("```", start_index)
    if start_index != -1 and end_index != -1:
        generated_proof_code = generated_proof_code[start_index:end_index].strip()
    else:
        st.warning(...)
```
`generated_proof_code.find("```", start_index)` is modelled by searching in
`s.drop start`, the result being the index relative to `start`; the slice
`s[start_index:end_index]` is then `(s.drop start).take e`. -/
def extractProof (s : List Char) : List Char × Bool :=
  if (findSub openMarker s).isSome && (findSub closeMarker s).isSome then
    match findSub openMarker s with
    | some i =>
      let start := i + openMarker.length
      match findSub closeMarker (s.drop start) with
      | some e => (pyStrip ((s.drop start).take e), false)
      | none => (s, true)
    | none => (s, false)
  else (s, false)

/-- A proof body wrapped in a fenced target-language block, the layout the
prompt itself uses (` ```lean `, newline, body, newline, ` ``` `). -/
def wrapFence (b : List Char) : List Char :=
  openMarker ++ ['\n'] ++ b ++ ['\n'] ++ closeMarker

/-- The fixed part of the generation prompt, `app.py` lines 93-100. -/
def basePrompt (problem : List Char) : List Char :=
  ("Vous êtes un assistant de preuve mathématique. " ++
   "Générez une démonstration formelle en langage Lean 4 pour la conjecture/problème suivant :\n\n").toList
  ++ problem ++
  ("\n\nLa démonstration doit être complète et valide syntaxiquement en Lean 4. " ++
   "Incluez les imports nécessaires et utilisez des tactiques appropriées. " ++
   "Ne générez que le code Lean, sans explication supplémentaire.\n\n").toList

/-- The corrective clause appended when `lean_error_feedback` is non-empty,
`app.py` lines 102-104. -/
def feedbackClause (fb : List Char) : List Char :=
  "Les tentatives précédentes ont échoué avec les erreurs Lean suivantes :\n```\n".toList
  ++ fb ++
  "\n```\nVeuillez corriger ces erreurs et fournir une démonstration valide.".toList

/-- The prompt built for one attempt, `app.py` lines 93-104.  Python
`if lean_error_feedback:` is the emptiness test on the feedback string. -/
def buildPrompt (problem fb : List Char) : List Char :=
  if fb = [] then basePrompt problem else basePrompt problem ++ feedbackClause fb

/-- Outcome of the `subprocess.run(["lean", "--run", path], ..., check=True)`
call on `app.py` lines 32-38, as seen by the caller. -/
inductive SubprocOutcome where
  /-- Exit code zero; carries captured standard output. -/
  | exitZero (stdout : List Char)
  /-- Non-zero exit code: `check=True` raises `CalledProcessError`;
  carries captured standard error. -/
  | exitNonzero (stderr : List Char)
  /-- The `lean` executable is absent from the search path:
  `FileNotFoundError`. -/
  | exeNotFound
  /-- Any other exception during invocation. -/
  | otherError (msg : List Char)
deriving DecidableEq

/-- The Python exceptions that can escape the `try` block of
`verify_lean_file` (`app.py` lines 25-38). -/
inductive PyExn where
  | fileNotFound
  | calledProcessError (stderr : List Char)
  | otherExc (msg : List Char)
deriving DecidableEq

/-- Message returned on line 27 when the proof file does not exist. -/
def errNoFile (path : List Char) : List Char :=
  "Erreur: Le fichier ".toList ++ path ++ " n'existe pas.".toList

/-- Success message prefix, line 40. -/
def validMsg : List Char :=
  "✅ La preuve dans le fichier Lean est valide!\n".toList

/-- Message returned by the `FileNotFoundError` handler, line 43. -/
def toolNotFoundMsg : List Char :=
  ("❌ Erreur: La commande 'lean' n'a pas été trouvée. " ++
   "Assurez-vous que Lean est installé et dans votre PATH.").toList

/-- Message prefix of the `CalledProcessError` handler, line 45. -/
def proofErrMsg (stderr : List Char) : List Char :=
  "❌ La preuve contient des erreurs!\n".toList ++ stderr

/-- Message of the generic `Exception` handler, line 47. -/
def unexpectedMsg (m : List Char) : List Char :=
  "Erreur inattendue lors de la vérification Lean: ".toList ++ m

/-- The `try` block of `verify_lean_file` (`app.py` lines 25-40).
`pathExists` models `Path(file_path).exists()`; when the path exists the
subprocess is invoked and `sp` gives its outcome.  The second component
records whether `subprocess.run` was called. -/
def verifyTry (path : List Char) (pathExists : Bool) (sp : SubprocOutcome) :
    Except PyExn (Bool × List Char) × Bool :=
  if pathExists = false then (Except.ok (false, errNoFile path), false)
  else
    match sp with
    | .exitZero out => (Except.ok (true, validMsg ++ out), true)
    | .exitNonzero err => (Except.error (.calledProcessError err), true)
    | .exeNotFound => (Except.error .fileNotFound, true)
    | .otherError m => (Except.error (.otherExc m), true)

/-- The three `except` clauses of `verify_lean_file`
(`app.py` lines 42-47); `except Exception` catches every remaining
exception, so no `PyExn` is re-raised. -/
def pyHandle (r : Except PyExn (Bool × List Char)) : Except PyExn (Bool × List Char) :=
  match r with
  | .ok v => .ok v
  | .error .fileNotFound => .ok (false, toolNotFoundMsg)
  | .error (.calledProcessError err) => .ok (false, proofErrMsg err)
  | .error (.otherExc m) => .ok (false, unexpectedMsg m)

/-- `verify_lean_file` (`app.py` lines 15-47): the `try` block wrapped in
its exception handlers.  First component: the value returned to the caller
(`Except.error` would mean an exception propagated out); second component:
whether the external subprocess was invoked. -/
def verify_lean_file (path : List Char) (pathExists : Bool) (sp : SubprocOutcome) :
    Except PyExn (Bool × List Char) × Bool :=
  (pyHandle (verifyTry path pathExists sp).1, (verifyTry path pathExists sp).2)

/-- The mutable loop variables of `app.py` lines 80-85:
`attempt`, `lean_error_feedback`, `is_valid`, `lean_output`. -/
structure LoopState where
  attempt : Nat
  feedback : List Char
  isValid : Bool
  output : List Char
deriving DecidableEq

/-- The observable record of one attempt (one iteration of the `while`
loop): its 1-based index, the prompt sent to the generator, the raw
generator text, the extracted proof text, the verification verdict and the
verifier's output text. -/
structure AttemptRec where
  idx : Nat
  prompt : List Char
  raw : List Char
  proof : List Char
  verdict : Bool
  diag : List Char
deriving DecidableEq

/-- Default record used with `List.getD`. -/
def dRec : AttemptRec := ⟨0, [], [], [], false, []⟩

/-- One iteration of the `while` body, `app.py` lines 88-146 (exception-free
path): increment `attempt`, build the prompt from the current feedback, call
the generator (oracle `gen`, indexed by attempt number), extract the proof
text, verify it (oracle `ver`, given the attempt number and the proof text
written to the temporary file), and on failure overwrite
`lean_error_feedback` with the verifier output (line 145). -/
def runAttempt (problem : List Char) (gen : Nat → List Char)
    (ver : Nat → List Char → Bool × List Char) (st : LoopState) :
    LoopState × AttemptRec :=
  let idx := st.attempt + 1
  let prompt := buildPrompt problem st.feedback
  let raw := gen idx
  let proof := (extractProof raw).1
  let v := ver idx proof
  let fb := if v.1 then st.feedback else v.2
  (⟨idx, fb, v.1, v.2⟩, ⟨idx, prompt, raw, proof, v.1, v.2⟩)

/-- The `while attempt < max_attempts and not is_valid` loop of
`app.py` line 87, with explicit fuel.  Since `attempt` starts at `0` and
increases by `1` per iteration, fuel `maxA` makes the recursion exact: the
fuel can only run out when the guard is already false. -/
def runLoop (maxA : Nat) (problem : List Char) (gen : Nat → List Char)
    (ver : Nat → List Char → Bool × List Char) :
    Nat → LoopState → LoopState × List AttemptRec
  | 0, st => (st, [])
  | fuel + 1, st =>
    if st.attempt < maxA ∧ st.isValid = false then
      let step := runAttempt problem gen ver st
      let rest := runLoop maxA problem gen ver fuel step.1
      (rest.1, step.2 :: rest.2)
    else (st, [])

/-- Terminal status of a run, `app.py` lines 161-165. -/
inductive RunStatus where
  | Succeeded
  | Failed
deriving DecidableEq

/-- A completed run: the ordered attempts and the terminal status. -/
structure RunResult where
  attempts : List AttemptRec
  status : RunStatus
deriving DecidableEq

/-- The whole validation process, `app.py` lines 80-165: initial state
`attempt = 0`, `lean_error_feedback = ""`, `is_valid = False`,
`lean_output = ""`; run the loop; report `Succeeded` iff `is_valid`. -/
def runProcess (maxA : Nat) (problem : List Char) (gen : Nat → List Char)
    (ver : Nat → List Char → Bool × List Char) : RunResult :=
  let r := runLoop maxA problem gen ver maxA ⟨0, [], false, []⟩
  ⟨r.2, if r.1.isValid then .Succeeded else .Failed⟩

/-- The primitive statements of one attempt body (`app.py` lines 89-150) that
matter for the temporary artifact's lifecycle, in source order.  `uiCall n`
stands for the n-th Streamlit rendering call of the body. -/
inductive PyStep where
  | uiCall (n : Nat)
  | genCall
  | writeTemp
  | verifyCall
  | removeTemp
deriving DecidableEq

/-- The attempt body as a step list, in the order of `app.py` lines 89-150:
`st.subheader` (89), the OpenAI call (106-115), `st.subheader` (128),
`st.code` (129), the temporary-file write (132-134), `st.info` (136),
`verify_lean_file` (138), `st.subheader` (140), `st.success`/`st.error`
(141-145), `st.code` (146), `os.remove` (149), `st.success` (150). -/
def attemptBody : List PyStep :=
  [.uiCall 0, .genCall, .uiCall 1, .uiCall 2, .writeTemp, .uiCall 3,
   .verifyCall, .uiCall 4, .uiCall 5, .uiCall 6, .removeTemp, .uiCall 7]

/-- Which steps can raise an exception that reaches the handlers on
lines 152-159.  `verify_lean_file` cannot: its own `except Exception`
clause absorbs everything (see `pyHandle`). -/
def stepCanRaise : PyStep → Bool
  | .verifyCall => false
  | _ => true

/-- Effect of one executed step on the pair
(artifact written, artifact deleted). -/
def stepEffect : PyStep → Bool × Bool → Bool × Bool
  | .writeTemp, (_, d) => (true, d)
  | .removeTemp, (w, _) => (w, true)
  | _, st => st

/-- Execute the attempt body under an exception oracle `raises`.  The first
step for which the oracle fires transfers control to the `except` handlers
(lines 152-159), which render messages and `break` without touching the
artifact.  Result: final (written, deleted) pair and whether an exception
fired. -/
def runBody (raises : PyStep → Bool) : List PyStep → Bool × Bool → (Bool × Bool) × Bool
  | [], st => (st, false)
  | s :: rest, st =>
    if stepCanRaise s && raises s then (st, true)
    else runBody raises rest (stepEffect s st)

/-- Artifact lifecycle of one attempt: run the body from
(not written, not deleted). -/
def attemptArtifact (raises : PyStep → Bool) : (Bool × Bool) × Bool :=
  runBody raises attemptBody (false, false)

/-- The steps lying between the artifact write (line 134) and the `os.remove`
statement (line 149), the removal itself included. -/
def leakWindow : List PyStep :=
  [.uiCall 3, .verifyCall, .uiCall 4, .uiCall 5, .uiCall 6, .removeTemp]

/-! ### Properties of `findSub` -/

lemma findSub_some_prefix (n : List Char) :
    ∀ (h : List Char) (i : Nat), findSub n h = some i → n <+: h.drop i := by
  intro h
  induction h with
  | nil =>
    intro i hi
    by_cases hp : n.isPrefixOf ([] : List Char)
    · simp only [findSub, hp, if_true, Option.some.injEq] at hi
      subst hi
      simpa using List.isPrefixOf_iff_prefix.mp hp
    · simp [findSub, hp] at hi
  | cons c rest ih =>
    intro i hi
    by_cases hp : n.isPrefixOf (c :: rest)
    · simp only [findSub, hp, if_true, Option.some.injEq] at hi
      subst hi
      simpa using List.isPrefixOf_iff_prefix.mp hp
    · simp only [findSub, hp, if_false, Bool.false_eq_true] at hi
      obtain ⟨i2, h2, rfl⟩ : ∃ a, findSub n rest = some a ∧ a + 1 = i := by
        simpa [Option.map_eq_some'] using hi
      simpa using ih i2 h2

lemma findSub_some_min (n : List Char) :
    ∀ (h : List Char) (i : Nat), findSub n h = some i →
      ∀ j, j < i → ¬ n <+: h.drop j := by
  intro h
  induction h with
  | nil =>
    intro i hi j hj
    by_cases hp : n.isPrefixOf ([] : List Char)
    · simp only [findSub, hp, if_true, Option.some.injEq] at hi
      omega
    · simp [findSub, hp] at hi
  | cons c rest ih =>
    intro i hi j hj
    by_cases hp : n.isPrefixOf (c :: rest)
    · simp only [findSub, hp, if_true, Option.some.injEq] at hi
      omega
    · simp only [findSub, hp, if_false, Bool.false_eq_true] at hi
      obtain ⟨i2, h2, rfl⟩ : ∃ a, findSub n rest = some a ∧ a + 1 = i := by
        simpa [Option.map_eq_some'] using hi
      cases j with
      | zero =>
        intro hc
        exact hp (List.isPrefixOf_iff_prefix.mpr (by simpa using hc))
      | succ j2 =>
        simpa using ih i2 h2 j2 (by omega)

lemma findSub_isSome_of_prefix (n : List Char) :
    ∀ (h : List Char) (j : Nat), n <+: h.drop j → (findSub n h).isSome := by
  intro h
  induction h with
  | nil =>
    intro j hj
    have hn : n = [] := List.prefix_nil.mp (by simpa using hj)
    subst hn
    simp [findSub]
  | cons c rest ih =>
    intro j hj
    by_cases hp : n.isPrefixOf (c :: rest)
    · simp [findSub, hp]
    · cases j with
      | zero =>
        exact absurd (List.isPrefixOf_iff_prefix.mpr (by simpa using hj)) hp
      | succ j2 =>
        have := ih j2 (by simpa using hj)
        simp only [findSub, hp, if_false, Bool.false_eq_true]
        simpa using this

lemma findSub_eq_some_of (n : List Char) :
    ∀ (h : List Char) (i : Nat), n <+: h.drop i →
      (∀ j, j < i → ¬ n <+: h.drop j) → findSub n h = some i := by
  intro h
  induction h with
  | nil =>
    intro i hpre hmin
    cases i with
    | zero =>
      have hn : n = [] := List.prefix_nil.mp (by simpa using hpre)
      subst hn
      simp [findSub]
    | succ i2 =>
      have hn : n = [] := List.prefix_nil.mp (by simpa using hpre)
      exact absurd (by simp [hn]) (hmin 0 (Nat.succ_pos i2))
  | cons c rest ih =>
    intro i hpre hmin
    cases i with
    | zero =>
      have hp : n.isPrefixOf (c :: rest) = true :=
        List.isPrefixOf_iff_prefix.mpr (by simpa using hpre)
      simp [findSub, hp]
    | succ i2 =>
      have hp : ¬ n.isPrefixOf (c :: rest) = true := fun hc =>
        hmin 0 (Nat.succ_pos i2) (by simpa using List.isPrefixOf_iff_prefix.mp hc)
      have hrec : findSub n rest = some i2 := by
        apply ih i2 (by simpa using hpre)
        intro j hj
        simpa using hmin (j + 1) (by omega)
      simp [findSub, hp, hrec]

lemma infix_iff_drop (n h : List Char) : n <:+: h ↔ ∃ j, n <+: h.drop j := by
  constructor
  · rintro ⟨s, t, rfl⟩
    refine ⟨s.length, ?_⟩
    rw [List.append_assoc, List.drop_left]
    exact List.prefix_append n t
  · rintro ⟨j, t, ht⟩
    refine ⟨h.take j, t, ?_⟩
    rw [List.append_assoc, ht, List.take_append_drop]

lemma take_no_infix (n t : List Char) (e : Nat) (hn : n ≠ [])
    (h : findSub n t = some e) : ¬ n <:+: t.take e := by
  intro hinf
  obtain ⟨j, hj⟩ := (infix_iff_drop n (t.take e)).mp hinf
  have hj2 : n <+: t.drop j := by
    have := hj
    rw [List.drop_take e j t] at this
    exact this.trans (List.take_prefix (e - j) (t.drop j))
  have hlen : 0 < n.length := List.length_pos.mpr hn
  have hle : n.length ≤ ((t.take e).drop j).length := hj.length_le
  have hje : j < e := by
    simp only [List.length_drop, List.length_take] at hle
    omega
  exact findSub_some_min n t e h j hje hj2

/-! ### Properties of the extraction block -/

lemma closeM_prefix_openM : closeMarker <+: openMarker := by decide

lemma openMarker_cons : openMarker = btick :: "``lean".toList := by decide

lemma closeMarker_cons : closeMarker = btick :: "``".toList := by decide

lemma not_prefix_of_no_btick (n x y : List Char) (hx : btick ∉ x) (j : Nat)
    (hj : j < x.length) : ¬ (btick :: n) <+: ((x ++ y).drop j) := by
  intro hp
  rw [List.drop_append_of_le_length (Nat.le_of_lt hj)] at hp
  have hne : x.drop j ≠ [] := by
    intro h0
    have := congrArg List.length h0
    simp only [List.length_drop, List.length_nil] at this
    omega
  obtain ⟨c, t, hct⟩ := List.exists_cons_of_ne_nil hne
  rw [hct, List.cons_append] at hp
  obtain ⟨u, hu⟩ := hp
  rw [List.cons_append] at hu
  have hc : btick = c := (List.cons.injEq _ _ _ _ ▸ hu).1
  apply hx
  have : c ∈ x.drop j := by rw [hct]; exact List.mem_cons_self c t
  rw [hc]
  exact List.mem_of_mem_drop this

lemma no_btick_findSub_open_none (b : List Char) (hb : btick ∉ b) :
    findSub openMarker b = none := by
  cases hf : findSub openMarker b with
  | none => rfl
  | some i =>
    exfalso
    have hp := findSub_some_prefix openMarker b i hf
    rw [openMarker_cons] at hp
    obtain ⟨t, ht⟩ := hp
    have hm : btick ∈ b.drop i := by
      rw [← ht, List.cons_append]
      exact List.mem_cons_self _ _
    exact hb (List.mem_of_mem_drop hm)

lemma extractProof_no_open (s : List Char) (h : findSub openMarker s = none) :
    extractProof s = (s, false) := by
  simp [extractProof, h]

lemma findSub_close_isSome (s : List Char) (i : Nat)
    (h : findSub openMarker s = some i) : (findSub closeMarker s).isSome := by
  have h1 : openMarker <+: s.drop i := findSub_some_prefix openMarker s i h
  exact findSub_isSome_of_prefix closeMarker s i (closeM_prefix_openM.trans h1)

lemma extractProof_found (s : List Char) (i e : Nat)
    (ho : findSub openMarker s = some i)
    (hc : findSub closeMarker (s.drop (i + openMarker.length)) = some e) :
    extractProof s = (pyStrip ((s.drop (i + openMarker.length)).take e), false) := by
  have hcl := findSub_close_isSome s i ho
  simp [extractProof, ho, hcl, hc]

lemma extractProof_malformed (s : List Char) (i : Nat)
    (ho : findSub openMarker s = some i)
    (hc : findSub closeMarker (s.drop (i + openMarker.length)) = none) :
    extractProof s = (s, true) := by
  have hcl := findSub_close_isSome s i ho
  simp [extractProof, ho, hcl, hc]

lemma pyStrip_infix (l : List Char) : pyStrip l <:+: l := by
  have h1 : l.dropWhile pySpace <:+ l := List.dropWhile_suffix pySpace
  obtain ⟨a, ha⟩ := List.dropWhile_suffix (l := (l.dropWhile pySpace).reverse) pySpace
  have h2 : pyStrip l <+: l.dropWhile pySpace := by
    refine ⟨a.reverse, ?_⟩
    have := congrArg List.reverse ha
    simpa [pyStrip, List.reverse_append] using this
  exact h2.isInfix.trans h1.isInfix

lemma not_infix_findSub_open_none (s : List Char) (h : ¬ closeMarker <:+: s) :
    findSub openMarker s = none := by
  cases hf : findSub openMarker s with
  | none => rfl
  | some i =>
    exfalso
    have h1 : openMarker <+: s.drop i := findSub_some_prefix openMarker s i hf
    exact h ((infix_iff_drop closeMarker s).mpr ⟨i, closeM_prefix_openM.trans h1⟩)

lemma extractProof_fst_cases (s : List Char) :
    (extractProof s).1 = s ∨ ¬ closeMarker <:+: (extractProof s).1 := by
  cases ho : findSub openMarker s with
  | none => left; rw [extractProof_no_open s ho]
  | some i =>
    cases hc : findSub closeMarker (s.drop (i + openMarker.length)) with
    | none => left; rw [extractProof_malformed s i ho hc]
    | some e =>
      right
      rw [extractProof_found s i e ho hc]
      intro hinf
      have h1 := pyStrip_infix ((s.drop (i + openMarker.length)).take e)
      exact take_no_infix closeMarker (s.drop (i + openMarker.length)) e
        (by decide) hc (hinf.trans h1)

lemma extractProof_idem (s : List Char) :
    (extractProof ((extractProof s).1)).1 = (extractProof s).1 := by
  rcases extractProof_fst_cases s with h | h
  · rw [h]
    exact h
  · rw [extractProof_no_open _ (not_infix_findSub_open_none _ h)]

lemma pyStrip_cons_space (c : Char) (l : List Char) (hc : pySpace c = true) :
    pyStrip (c :: l) = pyStrip l := by
  simp [pyStrip, List.dropWhile_cons, hc]

lemma pyStrip_concat_space (c : Char) (l : List Char) (hc : pySpace c = true) :
    pyStrip (l ++ [c]) = pyStrip l := by
  unfold pyStrip
  rw [List.dropWhile_append]
  by_cases he : (l.dropWhile pySpace).isEmpty
  · simp only [he, if_true]
    rw [List.isEmpty_iff] at he
    simp [he, List.dropWhile_cons, hc]
  · simp only [he, if_false, Bool.false_eq_true]
    simp [List.reverse_append, List.dropWhile_cons, hc]

/-! ### Properties of the validation loop -/

lemma runAttempt_fst_isValid (P : List Char) (gen : Nat → List Char)
    (ver : Nat → List Char → Bool × List Char) (st : LoopState) :
    (runAttempt P gen ver st).1.isValid =
      (ver (st.attempt + 1) ((extractProof (gen (st.attempt + 1))).1)).1 := by
  simp [runAttempt]

lemma runAttempt_fst_attempt (P : List Char) (gen : Nat → List Char)
    (ver : Nat → List Char → Bool × List Char) (st : LoopState) :
    (runAttempt P gen ver st).1.attempt = st.attempt + 1 := by
  simp [runAttempt]

lemma runAttempt_fst_feedback (P : List Char) (gen : Nat → List Char)
    (ver : Nat → List Char → Bool × List Char) (st : LoopState) :
    (runAttempt P gen ver st).1.feedback =
      if (ver (st.attempt + 1) ((extractProof (gen (st.attempt + 1))).1)).1
      then st.feedback
      else (ver (st.attempt + 1) ((extractProof (gen (st.attempt + 1))).1)).2 := by
  simp [runAttempt]

lemma runAttempt_snd_verdict (P : List Char) (gen : Nat → List Char)
    (ver : Nat → List Char → Bool × List Char) (st : LoopState) :
    (runAttempt P gen ver st).2.verdict =
      (ver (st.attempt + 1) ((extractProof (gen (st.attempt + 1))).1)).1 := by
  simp [runAttempt]

lemma runAttempt_snd_diag (P : List Char) (gen : Nat → List Char)
    (ver : Nat → List Char → Bool × List Char) (st : LoopState) :
    (runAttempt P gen ver st).2.diag =
      (ver (st.attempt + 1) ((extractProof (gen (st.attempt + 1))).1)).2 := by
  simp [runAttempt]

lemma runAttempt_snd_prompt (P : List Char) (gen : Nat → List Char)
    (ver : Nat → List Char → Bool × List Char) (st : LoopState) :
    (runAttempt P gen ver st).2.prompt = buildPrompt P st.feedback := by
  simp [runAttempt]

lemma runLoop_stop (maxA : Nat) (P : List Char) (gen : Nat → List Char)
    (ver : Nat → List Char → Bool × List Char) (fuel : Nat) (st : LoopState)
    (h : st.isValid = true) :
    runLoop maxA P gen ver fuel st = (st, []) := by
  cases fuel with
  | zero => rfl
  | succ f => simp [runLoop, h]

lemma runLoop_cons (maxA : Nat) (P : List Char) (gen : Nat → List Char)
    (ver : Nat → List Char → Bool × List Char) (fuel : Nat) (st : LoopState)
    (h : st.attempt < maxA ∧ st.isValid = false) :
    runLoop maxA P gen ver (fuel + 1) st =
      ((runLoop maxA P gen ver fuel (runAttempt P gen ver st).1).1,
       (runAttempt P gen ver st).2 ::
         (runLoop maxA P gen ver fuel (runAttempt P gen ver st).1).2) := by
  simp [runLoop, h]

lemma runLoop_ne_nil (maxA : Nat) (P : List Char) (gen : Nat → List Char)
    (ver : Nat → List Char → Bool × List Char) (fuel : Nat) (st : LoopState)
    (h : (runLoop maxA P gen ver fuel st).2 ≠ []) :
    st.attempt < maxA ∧ st.isValid = false := by
  cases fuel with
  | zero => simp [runLoop] at h
  | succ f =>
    by_cases hg : st.attempt < maxA ∧ st.isValid = false
    · exact hg
    · simp [runLoop, hg] at h

lemma runLoop_head (maxA : Nat) (P : List Char) (gen : Nat → List Char)
    (ver : Nat → List Char → Bool × List Char) (fuel : Nat) (st : LoopState)
    (r : AttemptRec) (rest : List AttemptRec)
    (h : (runLoop maxA P gen ver fuel st).2 = r :: rest) :
    r = (runAttempt P gen ver st).2 ∧
    rest = (runLoop maxA P gen ver (fuel - 1) (runAttempt P gen ver st).1).2 := by
  cases fuel with
  | zero => simp [runLoop] at h
  | succ f =>
    by_cases hg : st.attempt < maxA ∧ st.isValid = false
    · rw [runLoop_cons maxA P gen ver f st hg] at h
      injection h with h1 h2
      exact ⟨h1.symm, by simpa using h2.symm⟩
    · simp [runLoop, hg] at h

lemma runLoop_allfail_len (maxA : Nat) (P : List Char) (gen : Nat → List Char)
    (ver : Nat → List Char → Bool × List Char)
    (hv : ∀ k p, (ver k p).1 = false) :
    ∀ (fuel : Nat) (st : LoopState), st.isValid = false →
      (runLoop maxA P gen ver fuel st).2.length = min fuel (maxA - st.attempt) ∧
      (runLoop maxA P gen ver fuel st).1.isValid = false := by
  intro fuel
  induction fuel with
  | zero =>
    intro st h
    simp [runLoop, h]
  | succ f ih =>
    intro st h
    by_cases hlt : st.attempt < maxA
    · rw [runLoop_cons maxA P gen ver f st ⟨hlt, h⟩]
      have h1 : (runAttempt P gen ver st).1.isValid = false := by
        rw [runAttempt_fst_isValid]
        exact hv _ _
      obtain ⟨hl, hvld⟩ := ih (runAttempt P gen ver st).1 h1
      refine ⟨?_, hvld⟩
      simp only [List.length_cons, hl, runAttempt_fst_attempt]
      omega
    · have hg : ¬ (st.attempt < maxA ∧ st.isValid = false) := fun hc => hlt hc.1
      simp only [runLoop, hg, if_false]
      refine ⟨?_, h⟩
      simp only [List.length_nil]
      omega

lemma runLoop_chain (maxA : Nat) (P : List Char) (gen : Nat → List Char)
    (ver : Nat → List Char → Bool × List Char) :
    ∀ (fuel : Nat) (st : LoopState) (k : Nat),
      k + 1 < (runLoop maxA P gen ver fuel st).2.length →
      ((runLoop maxA P gen ver fuel st).2.getD k dRec).verdict = false ∧
      ((runLoop maxA P gen ver fuel st).2.getD (k + 1) dRec).prompt =
        buildPrompt P (((runLoop maxA P gen ver fuel st).2.getD k dRec).diag) := by
  intro fuel
  induction fuel with
  | zero =>
    intro st k hk
    simp [runLoop] at hk
  | succ f ih =>
    intro st k hk
    by_cases hg : st.attempt < maxA ∧ st.isValid = false
    · rw [runLoop_cons maxA P gen ver f st hg] at hk ⊢
      cases k with
      | succ j =>
        simp only [List.getD_cons_succ, List.length_cons] at hk ⊢
        exact ih (runAttempt P gen ver st).1 j (by omega)
      | zero =>
        simp only [List.getD_cons_zero, List.getD_cons_succ,
          List.length_cons] at hk ⊢
        have hne : (runLoop maxA P gen ver f (runAttempt P gen ver st).1).2 ≠ [] := by
          intro h0
          rw [h0] at hk
          simp at hk
        obtain ⟨r1, rest2, hr⟩ := List.exists_cons_of_ne_nil hne
        obtain ⟨hgv1, hgv2⟩ :=
          runLoop_ne_nil maxA P gen ver f (runAttempt P gen ver st).1 (by rw [hr]; simp)
        rw [runAttempt_fst_isValid] at hgv2
        constructor
        · rw [runAttempt_snd_verdict]
          exact hgv2
        · obtain ⟨hr1, _⟩ := runLoop_head maxA P gen ver f (runAttempt P gen ver st).1 r1 rest2 hr
          rw [hr, List.getD_cons_zero, hr1, runAttempt_snd_prompt,
            runAttempt_fst_feedback, runAttempt_snd_diag, hgv2]
          simp
    · simp [runLoop, hg] at hk

/-- The feedback text is contained verbatim in the prompt built from it. -/
lemma feedback_infix_prompt (P fb : List Char) : fb <:+: buildPrompt P fb := by
  by_cases h : fb = []
  · subst h
    simp
  · simp only [buildPrompt, h, if_false]
    unfold feedbackClause
    refine ⟨basePrompt P ++
      "Les tentatives précédentes ont échoué avec les erreurs Lean suivantes :\n```\n".toList,
      "\n```\nVeuillez corriger ces erreurs et fournir une démonstration valide.".toList, ?_⟩
    simp [List.append_assoc]

/-! ### Concrete fixtures used by witnesses and counterexamples -/

/-- A sample problem statement. -/
def cProblem : List Char := "1 + 1 = 2".toList

/-- A generator oracle that always answers the same raw text. -/
def cGen : Nat → List Char := fun _ => "exact rfl".toList

/-- A verifier oracle that reports every proof invalid. -/
def cVerFail : Nat → List Char → Bool × List Char :=
  fun _ _ => (false, "erreur de syntaxe".toList)

/-- A verifier oracle that reports every proof valid. -/
def cVerOk : Nat → List Char → Bool × List Char :=
  fun _ _ => (true, "ok".toList)

/-- The verifier oracle realised when the `lean` executable is missing:
`verify_lean_file` returns `(False, toolNotFoundMsg)` on every call. -/
def cVerToolMissing : Nat → List Char → Bool × List Char :=
  fun _ _ => (false, toolNotFoundMsg)

/-! ### The claims -/

/-- Claim C3 (confirmed): with `maxAttempts = N`, if every cycle's
verification reports the proof invalid, the run performs exactly N attempts
and terminates with status `Failed`. -/
theorem claim_C3 (maxA : Nat) (P : List Char) (gen : Nat → List Char)
    (ver : Nat → List Char → Bool × List Char)
    (hv : ∀ k p, (ver k p).1 = false) :
    (runProcess maxA P gen ver).attempts.length = maxA ∧
    (runProcess maxA P gen ver).status = RunStatus.Failed := by
  obtain ⟨hl, hvld⟩ :=
    runLoop_allfail_len maxA P gen ver hv maxA ⟨0, [], false, []⟩ rfl
  constructor
  · simpa [runProcess] using hl
  · simp [runProcess, hvld]

/-- Witness for C3: at `maxAttempts = 3` with an always-failing verifier the
run has exactly 3 attempts and ends `Failed`. -/
theorem claim_C3_witness :
    (∀ (k : Nat) (p : List Char), (cVerFail k p).1 = false) ∧
    (runProcess 3 cProblem cGen cVerFail).attempts.length = 3 ∧
    (runProcess 3 cProblem cGen cVerFail).status = RunStatus.Failed :=
  ⟨fun _ _ => rfl,
   (claim_C3 3 cProblem cGen cVerFail (fun _ _ => rfl)).1,
   (claim_C3 3 cProblem cGen cVerFail (fun _ _ => rfl)).2⟩

/-- Claim C5 (confirmed): if the very first cycle's verification reports the
proof valid, the run reaches `Succeeded` after exactly 1 attempt. -/
theorem claim_C5 (maxA : Nat) (P : List Char) (gen : Nat → List Char)
    (ver : Nat → List Char → Bool × List Char) (hA : 0 < maxA)
    (hv : (ver 1 ((extractProof (gen 1)).1)).1 = true) :
    (runProcess maxA P gen ver).attempts.length = 1 ∧
    (runProcess maxA P gen ver).status = RunStatus.Succeeded := by
  cases maxA with
  | zero => exact absurd hA (by omega)
  | succ m =>
    have hguard : (⟨0, [], false, []⟩ : LoopState).attempt < m + 1 ∧
        (⟨0, [], false, []⟩ : LoopState).isValid = false := ⟨Nat.succ_pos m, rfl⟩
    have hc := runLoop_cons (m + 1) P gen ver m ⟨0, [], false, []⟩ hguard
    have hst1 : (runAttempt P gen ver ⟨0, [], false, []⟩).1.isValid = true := by
      rw [runAttempt_fst_isValid]
      simpa using hv
    have hstop := runLoop_stop (m + 1) P gen ver m
      (runAttempt P gen ver ⟨0, [], false, []⟩).1 hst1
    constructor
    · simp [runProcess, hc, hstop]
    · simp [runProcess, hc, hstop, hst1]

/-- Witness for C5: with an always-accepting verifier and 3 allowed attempts
the run succeeds after exactly 1 attempt. -/
theorem claim_C5_witness :
    0 < 3 ∧
    (cVerOk 1 ((extractProof (cGen 1)).1)).1 = true ∧
    (runProcess 3 cProblem cGen cVerOk).attempts.length = 1 ∧
    (runProcess 3 cProblem cGen cVerOk).status = RunStatus.Succeeded :=
  ⟨by decide, rfl,
   (claim_C5 3 cProblem cGen cVerOk (by decide) rfl).1,
   (claim_C5 3 cProblem cGen cVerOk (by decide) rfl).2⟩

/-- Claim C4 (confirmed): every attempt `k` that is followed by attempt
`k+1` failed verification, and the prompt of attempt `k+1` contains the
diagnostic text of attempt `k` verbatim (as a contiguous substring). -/
theorem claim_C4 (maxA : Nat) (P : List Char) (gen : Nat → List Char)
    (ver : Nat → List Char → Bool × List Char) (k : Nat)
    (hk : k + 1 < (runProcess maxA P gen ver).attempts.length) :
    ((runProcess maxA P gen ver).attempts.getD k dRec).verdict = false ∧
    ((runProcess maxA P gen ver).attempts.getD k dRec).diag <:+:
      ((runProcess maxA P gen ver).attempts.getD (k + 1) dRec).prompt := by
  have hatt : (runProcess maxA P gen ver).attempts =
      (runLoop maxA P gen ver maxA ⟨0, [], false, []⟩).2 := rfl
  rw [hatt] at hk ⊢
  obtain ⟨h1, h2⟩ := runLoop_chain maxA P gen ver maxA ⟨0, [], false, []⟩ k hk
  refine ⟨h1, ?_⟩
  rw [h2]
  exact feedback_infix_prompt P _

/-- Witness for C4: in a 3-attempt failing run, attempt 1's diagnostic is a
substring of attempt 2's prompt. -/
theorem claim_C4_witness :
    0 + 1 < (runProcess 3 cProblem cGen cVerFail).attempts.length ∧
    (((runProcess 3 cProblem cGen cVerFail).attempts.getD 0 dRec).verdict = false ∧
     ((runProcess 3 cProblem cGen cVerFail).attempts.getD 0 dRec).diag <:+:
       ((runProcess 3 cProblem cGen cVerFail).attempts.getD (0 + 1) dRec).prompt) :=
  ⟨by decide, claim_C4 3 cProblem cGen cVerFail 0 (by decide)⟩

/-- Claim C9 (confirmed): the prompt of attempt `k+1` is exactly the prompt
built from the problem statement and the single diagnostic of the
immediately preceding failed attempt `k` — diagnostics are replaced, never
accumulated. -/
theorem claim_C9 (maxA : Nat) (P : List Char) (gen : Nat → List Char)
    (ver : Nat → List Char → Bool × List Char) (k : Nat)
    (hk : k + 1 < (runProcess maxA P gen ver).attempts.length) :
    ((runProcess maxA P gen ver).attempts.getD k dRec).verdict = false ∧
    ((runProcess maxA P gen ver).attempts.getD (k + 1) dRec).prompt =
      buildPrompt P (((runProcess maxA P gen ver).attempts.getD k dRec).diag) :=
  runLoop_chain maxA P gen ver maxA ⟨0, [], false, []⟩ k hk

/-- Witness for C9: in a 3-attempt failing run, attempt 3's prompt equals
the prompt built from attempt 2's diagnostic alone. -/
theorem claim_C9_witness :
    1 + 1 < (runProcess 3 cProblem cGen cVerFail).attempts.length ∧
    (((runProcess 3 cProblem cGen cVerFail).attempts.getD 1 dRec).verdict = false ∧
     ((runProcess 3 cProblem cGen cVerFail).attempts.getD (1 + 1) dRec).prompt =
       buildPrompt cProblem
         (((runProcess 3 cProblem cGen cVerFail).attempts.getD 1 dRec).diag)) :=
  ⟨by decide, claim_C9 3 cProblem cGen cVerFail 1 (by decide)⟩

/-- Claim C1 counterexample: when the verifier executable cannot be located,
`verify_lean_file` returns `(False, toolNotFoundMsg)` (it does not raise),
and a run in which every verification reports this tool-not-found failure
performs 3 attempts — not exactly 1 — before ending `Failed`.  This refutes
"aborts the Run immediately ... after exactly 1 Attempt". -/
theorem claim_C1_counterexample :
    (verify_lean_file "tmp.lean".toList true SubprocOutcome.exeNotFound).1 =
      Except.ok (false, toolNotFoundMsg) ∧
    (runProcess 3 cProblem cGen cVerToolMissing).attempts.length = 3 ∧
    (runProcess 3 cProblem cGen cVerToolMissing).attempts.length ≠ 1 ∧
    (runProcess 3 cProblem cGen cVerToolMissing).status = RunStatus.Failed :=
  ⟨rfl, by decide, by decide, rfl⟩

/-- Claim C1 amended: a missing verifier executable is non-fatal in the
implementation: `verify_lean_file` converts the `FileNotFoundError` into the
verdict `(False, toolNotFoundMsg)`, the controller treats it like any failed
verification and retries, and the run ends `Failed` only after all
`maxAttempts = 3` attempts are used. -/
theorem claim_C1 (P : List Char) (gen : Nat → List Char) :
    (∀ path : List Char,
      (verify_lean_file path true SubprocOutcome.exeNotFound).1 =
        Except.ok (false, toolNotFoundMsg)) ∧
    (runProcess 3 P gen cVerToolMissing).attempts.length = 3 ∧
    (runProcess 3 P gen cVerToolMissing).status = RunStatus.Failed := by
  obtain ⟨hl, hvld⟩ :=
    runLoop_allfail_len 3 P gen cVerToolMissing (fun _ _ => rfl) 3 ⟨0, [], false, []⟩ rfl
  exact ⟨fun _ => rfl, by simpa [runProcess] using hl, by simp [runProcess, hvld]⟩

/-- Claim C6 (confirmed): on raw text holding two fenced target-language
blocks, extraction uses the first opening marker and the first closing
marker after it, returning only the first block's trimmed content; the
second block, like everything after the first closing marker, is ignored.
The hypotheses pin the two marked occurrences as the first ones: the text
before the first opening marker and the first block's body contain no
backtick. -/
theorem claim_C6 (pre b1 mid b2 post : List Char)
    (hpre : btick ∉ pre) (hb1 : btick ∉ b1) :
    extractProof (pre ++ (openMarker ++ (b1 ++ (closeMarker ++
      (mid ++ (openMarker ++ (b2 ++ (closeMarker ++ post)))))))) =
    (pyStrip b1, false) := by
  set rest2 := mid ++ (openMarker ++ (b2 ++ (closeMarker ++ post))) with hrest2
  set s := pre ++ (openMarker ++ (b1 ++ (closeMarker ++ rest2))) with hs
  have hdrop1 : s.drop pre.length = openMarker ++ (b1 ++ (closeMarker ++ rest2)) := by
    rw [hs]
    exact List.drop_left pre _
  have h1 : findSub openMarker s = some pre.length := by
    apply findSub_eq_some_of
    · rw [hdrop1]
      exact List.prefix_append _ _
    · intro j hj
      rw [openMarker_cons, hs]
      exact not_prefix_of_no_btick _ pre _ hpre j hj
  have hdrop2 : s.drop (pre.length + openMarker.length) =
      b1 ++ (closeMarker ++ rest2) := by
    rw [hs, show pre ++ (openMarker ++ (b1 ++ (closeMarker ++ rest2))) =
      (pre ++ openMarker) ++ (b1 ++ (closeMarker ++ rest2)) from by
        simp [List.append_assoc]]
    rw [show pre.length + openMarker.length = (pre ++ openMarker).length from
      (List.length_append _ _).symm]
    exact List.drop_left _ _
  have h2 : findSub closeMarker (s.drop (pre.length + openMarker.length)) =
      some b1.length := by
    rw [hdrop2]
    apply findSub_eq_some_of
    · rw [List.drop_left]
      exact List.prefix_append _ _
    · intro j hj
      rw [closeMarker_cons]
      exact not_prefix_of_no_btick _ b1 _ hb1 j hj
  rw [extractProof_found s pre.length b1.length h1 h2, hdrop2, List.take_left]

/-- Witness for C6: a concrete two-block input returns only the first
block's stripped body. -/
theorem claim_C6_witness :
    btick ∉ "Voici le code : ".toList ∧
    btick ∉ " ma preuve ".toList ∧
    extractProof ("Voici le code : ".toList ++ (openMarker ++
      (" ma preuve ".toList ++ (closeMarker ++ (" et aussi ".toList ++
      (openMarker ++ (" autre ".toList ++ (closeMarker ++ " fin".toList)))))))) =
    (pyStrip " ma preuve ".toList, false) :=
  ⟨by decide, by decide,
   claim_C6 "Voici le code : ".toList " ma preuve ".toList " et aussi ".toList
     " autre ".toList " fin".toList (by decide) (by decide)⟩

/-- Claim C7 (confirmed): extraction returns the raw text unchanged when no
well-formed fenced block exists — if no opening marker is present the raw
text passes through untouched (no warning), and if an opening marker has no
closing marker after it, the malformed-extraction warning fires and the
unmodified raw text is used as the proof text. -/
theorem claim_C7 :
    (∀ s : List Char, findSub openMarker s = none → extractProof s = (s, false)) ∧
    (∀ (s : List Char) (i : Nat), findSub openMarker s = some i →
      findSub closeMarker (s.drop (i + openMarker.length)) = none →
      extractProof s = (s, true)) :=
  ⟨fun s h => extractProof_no_open s h,
   fun s i ho hc => extractProof_malformed s i ho hc⟩

/-- Witness for C7: `"no fences here"` passes through unchanged with no
warning; `"```lean x"` (opening marker, no closing marker after it) passes
through unchanged with the warning flag set. -/
theorem claim_C7_witness :
    (findSub openMarker "no fences here".toList = none ∧
     extractProof "no fences here".toList = ("no fences here".toList, false)) ∧
    (findSub openMarker "```lean x".toList = some 0 ∧
     findSub closeMarker ("```lean x".toList.drop (0 + openMarker.length)) = none ∧
     extractProof "```lean x".toList = ("```lean x".toList, true)) :=
  ⟨⟨by decide, claim_C7.1 "no fences here".toList (by decide)⟩,
   ⟨by decide, by decide, claim_C7.2 "```lean x".toList 0 (by decide) (by decide)⟩⟩

/-- Claim C8 counterexample: extraction is not invariant under fencing for
every body — the body `" x "` extracts to `"x"` when fenced (the inner text
is stripped) but to `" x "` when already unfenced (returned as-is). -/
theorem claim_C8_counterexample :
    (extractProof (wrapFence " x ".toList)).1 ≠ (extractProof " x ".toList).1 := by
  decide

/-- Claim C8 amended: for every proof body that contains no backtick (so it
holds no fence marker and is not re-extracted) and equals its own stripped
form, extracting the fenced body and extracting the already-unfenced body
yield the same canonical text; and extraction applied to its own output is
always the identity. -/
theorem claim_C8 :
    (∀ b : List Char, btick ∉ b → pyStrip b = b →
      (extractProof (wrapFence b)).1 = (extractProof b).1) ∧
    (∀ s : List Char, (extractProof ((extractProof s).1)).1 = (extractProof s).1) := by
  constructor
  · intro b hb hstrip
    rw [extractProof_no_open b (no_btick_findSub_open_none b hb)]
    have hw : wrapFence b = openMarker ++ ('\n' :: (b ++ ('\n' :: closeMarker))) := by
      simp [wrapFence, List.append_assoc]
    have h1 : findSub openMarker (wrapFence b) = some 0 := by
      apply findSub_eq_some_of
      · rw [hw]
        exact List.prefix_append openMarker _
      · intro j hj
        exact absurd hj (Nat.not_lt_zero j)
    have hdrop : (wrapFence b).drop (0 + openMarker.length) =
        '\n' :: (b ++ ('\n' :: closeMarker)) := by
      rw [hw, Nat.zero_add]
      exact List.drop_left openMarker _
    have h2 : findSub closeMarker ((wrapFence b).drop (0 + openMarker.length)) =
        some (b.length + 2) := by
      rw [hdrop]
      apply findSub_eq_some_of
      · have he : ('\n' :: (b ++ ('\n' :: closeMarker))).drop (b.length + 2) =
            closeMarker := by
          rw [show ('\n' :: (b ++ ('\n' :: closeMarker))) =
            (('\n' :: b) ++ ('\n' :: closeMarker)) from by simp]
          rw [show b.length + 2 = ('\n' :: b).length + 1 from by simp]
          rw [List.drop_append 1]
          rfl
        rw [he]
      · intro j hj
        cases j with
        | zero =>
          rw [closeMarker_cons]
          intro hp
          obtain ⟨t, ht⟩ := hp
          rw [List.cons_append] at ht
          have hbt : btick = '\n' := (List.cons.injEq _ _ _ _ ▸ ht).1
          exact absurd hbt (by decide)
        | succ j2 =>
          simp only [List.drop_succ_cons]
          rcases Nat.lt_or_ge j2 b.length with hlt | hge
          · rw [closeMarker_cons]
            exact not_prefix_of_no_btick _ b _ hb j2 hlt
          · have hj2 : j2 = b.length := by omega
            subst hj2
            rw [List.drop_left]
            rw [closeMarker_cons]
            intro hp
            obtain ⟨t, ht⟩ := hp
            rw [List.cons_append] at ht
            have hbt : btick = '\n' := (List.cons.injEq _ _ _ _ ▸ ht).1
            exact absurd hbt (by decide)
    rw [extractProof_found (wrapFence b) 0 (b.length + 2) h1 h2]
    rw [hdrop]
    have htake : ('\n' :: (b ++ ('\n' :: closeMarker))).take (b.length + 2) =
        '\n' :: (b ++ ['\n']) := by
      rw [show ('\n' :: (b ++ ('\n' :: closeMarker))) =
        (('\n' :: b) ++ ('\n' :: closeMarker)) from by simp]
      rw [show b.length + 2 = ('\n' :: b).length + 1 from by simp]
      rw [List.take_append 1]
      simp
    rw [htake, pyStrip_cons_space '\n' _ (by decide),
      pyStrip_concat_space '\n' b (by decide), hstrip]
  · exact extractProof_idem

/-- Witness for C8: a backtick-free, already-stripped body extracts to the
same text fenced or unfenced. -/
theorem claim_C8_witness :
    btick ∉ "exact rfl".toList ∧
    pyStrip "exact rfl".toList = "exact rfl".toList ∧
    (extractProof (wrapFence "exact rfl".toList)).1 =
      (extractProof "exact rfl".toList).1 :=
  ⟨by decide, by decide, claim_C8.1 "exact rfl".toList (by decide) (by decide)⟩

/-- Claim C2 counterexample: the temporary proof artifact is not released on
every exit path — if an unexpected exception fires at the Streamlit call
between verification and `os.remove` (step `uiCall 4`, line 140), the
artifact has been written but is never deleted: it leaks. -/
theorem claim_C2_counterexample :
    (attemptArtifact (fun s => s == PyStep.uiCall 4)).1.1 = true ∧
    (attemptArtifact (fun s => s == PyStep.uiCall 4)).1.2 = false ∧
    ¬ ((attemptArtifact (fun s => s == PyStep.uiCall 4)).1.1 = true →
       (attemptArtifact (fun s => s == PyStep.uiCall 4)).1.2 = true) := by
  decide

/-- Claim C2 amended: the artifact is deleted on normal completion of the
attempt body — which covers both the valid-proof verdict and the
tool-reported failure verdict, since `verify_lean_file` returns instead of
raising — but the deletion is a plain statement, not a scoped finalizer: it
is guaranteed only when no unexpected exception fires at a step between the
artifact write and the `os.remove` call. -/
theorem claim_C2 :
    (∀ raises : PyStep → Bool, (∀ s, raises s = false) →
      attemptArtifact raises = ((true, true), false)) ∧
    (∀ raises : PyStep → Bool, (∀ s ∈ leakWindow, raises s = false) →
      (attemptArtifact raises).1.1 = true → (attemptArtifact raises).1.2 = true) := by
  constructor
  · intro raises h
    simp [attemptArtifact, attemptBody, runBody, stepCanRaise, stepEffect, h]
  · intro raises hwin
    have h3 := hwin (.uiCall 3) (by simp [leakWindow])
    have h4 := hwin (.uiCall 4) (by simp [leakWindow])
    have h5 := hwin (.uiCall 5) (by simp [leakWindow])
    have h6 := hwin (.uiCall 6) (by simp [leakWindow])
    have hrm := hwin .removeTemp (by simp [leakWindow])
    rcases Bool.eq_false_or_eq_true (raises (.uiCall 0)) with h0 | h0 <;>
    rcases Bool.eq_false_or_eq_true (raises .genCall) with hg | hg <;>
    rcases Bool.eq_false_or_eq_true (raises (.uiCall 1)) with ha | ha <;>
    rcases Bool.eq_false_or_eq_true (raises (.uiCall 2)) with hb2 | hb2 <;>
    rcases Bool.eq_false_or_eq_true (raises .writeTemp) with hwr | hwr <;>
    rcases Bool.eq_false_or_eq_true (raises (.uiCall 7)) with h7 | h7 <;>
      simp [attemptArtifact, attemptBody, runBody, stepCanRaise, stepEffect,
        h0, hg, ha, hb2, hwr, h3, h4, h5, h6, hrm, h7]

/-- Witness for C2 amended: with no exception anywhere the artifact is
written and deleted, and the deletion guarantee holds. -/
theorem claim_C2_witness :
    attemptArtifact (fun _ => false) = ((true, true), false) ∧
    ((attemptArtifact (fun _ => false)).1.1 = true →
     (attemptArtifact (fun _ => false)).1.2 = true) :=
  ⟨claim_C2.1 (fun _ => false) (fun _ => rfl),
   claim_C2.2 (fun _ => false) (fun _ _ => rfl)⟩

/-- Claim C10 (confirmed): `verify_lean_file` is total at its interface —
for every path/filesystem/subprocess configuration it returns an ordinary
`(bool, string)` pair (never propagates an exception), and when the path
does not exist it returns `(False, errNoFile path)` without invoking the
external subprocess. -/
theorem claim_C10 (path : List Char) (pathExists : Bool) (sp : SubprocOutcome) :
    (∃ r, (verify_lean_file path pathExists sp).1 = Except.ok r) ∧
    (pathExists = false →
      verify_lean_file path pathExists sp =
        (Except.ok (false, errNoFile path), false)) := by
  constructor
  · cases pathExists <;> cases sp <;> exact ⟨_, rfl⟩
  · intro h
    subst h
    rfl

/-- Witness for C10: a nonexistent path yields the error verdict with no
subprocess call even when the subprocess oracle would report failure. -/
theorem claim_C10_witness :
    (∃ r, (verify_lean_file "preuve.lean".toList false
      (SubprocOutcome.exitNonzero "err".toList)).1 = Except.ok r) ∧
    verify_lean_file "preuve.lean".toList false
      (SubprocOutcome.exitNonzero "err".toList) =
      (Except.ok (false, errNoFile "preuve.lean".toList), false) :=
  ⟨(claim_C10 "preuve.lean".toList false (SubprocOutcome.exitNonzero "err".toList)).1,
   (claim_C10 "preuve.lean".toList false (SubprocOutcome.exitNonzero "err".toList)).2 rfl⟩
